import Mathlib

/-!
Verification of the Health-Sathi local data store (services/dbService.ts)
and its zustand synchronization layer (store.ts).

Records persisted in IndexedDB are JavaScript objects; we embed them as
association lists from field names to values, so that the object-spread
merge `{ ...data, ...updates }` and `keyPath`-based primary keys are
modelled exactly.  Asynchronous store operations become explicit
state-passing functions `DB → ... → DB × Except DBError _`; the artificial
latency (`delay(...)`) has no observable effect on the data and is dropped.
-/

deriving instance DecidableEq for Except

namespace HealthSathi

/-- JavaScript values that occur in the stored records: strings, numbers
(report timestamps), and the explicit `undefined` that an object literal
such as `{ doctorNotes: notes }` stores when `notes` is omitted. -/
inductive Value where
  | str (s : String)
  | num (n : Int)
  | undefined
deriving DecidableEq, Repr

/-- A stored JavaScript object: field names with their values, in property
order. -/
abbrev Record := List (String × Value)

/-- Property lookup `r[k]`: first binding of the field, if any. -/
def getField (r : Record) (k : String) : Option Value :=
  (r.find? (fun p => p.1 == k)).map Prod.snd

/-- Property access `r.k` as JavaScript sees it: `undefined` when the field
is absent. -/
def jsGet (r : Record) (k : String) : Value :=
  (getField r k).getD .undefined

/-- Object spread `{ ...data, ...updates }`: fields of `data` in order,
overridden by `updates` where present, followed by the fields of `updates`
that `data` does not have. -/
def mergeRecords (data updates : Record) : Record :=
  data.map (fun p =>
    match getField updates p.1 with
    | some v => (p.1, v)
    | none => p)
  ++ updates.filter (fun p => (getField data p.1).isNone)

/-- Modelled from the spec: the domain-types module (outside src/) defines
`UserRole` as the enum with members PATIENT, DOCTOR, GUEST. -/
inductive UserRole where
  | PATIENT
  | DOCTOR
  | GUEST
deriving DecidableEq, Repr

/-- Modelled from the spec: the enum members are opaque distinct constants;
we embed them as tagged strings stored in the `role` field. -/
def roleValue : UserRole → Value
  | .PATIENT => .str "PATIENT"
  | .DOCTOR => .str "DOCTOR"
  | .GUEST => .str "GUEST"

/-- The two object stores of the HealthSathiDB database: `users` (keyPath
`_id`, unique index on `email`, index on `role`) and `reports` (keyPath
`id`, indexes on `userId`, `targetDoctorId`, `timestamp`). -/
structure DB where
  users : List Record
  reports : List Record
deriving DecidableEq, Repr

/-- Errors thrown by the service layer. -/
inductive DBError where
  /-- "User with this email already exists." -/
  | userExists
  /-- "Invalid email or password." -/
  | invalidCredential
  /-- "User not found" -/
  | userNotFound
  /-- "Report not found" -/
  | reportNotFound
  /-- an IndexedDB add/unique-index constraint violation -/
  | constraintError
deriving DecidableEq, Repr

/-- `index.get(v)`: the first record whose indexed field equals `v`
(records missing the field are absent from the index). -/
def indexGet (coll : List Record) (field : String) (v : Value) : Option Record :=
  coll.find? (fun r => getField r field == some v)

/-- `index.getAll(v)`: every record whose indexed field equals `v`, in
store order. -/
def indexGetAll (coll : List Record) (field : String) (v : Value) : List Record :=
  coll.filter (fun r => getField r field == some v)

/-- `store.get(kv)` on a keyPath object store. -/
def getByKey (coll : List Record) (keyPath : String) (kv : Value) : Option Record :=
  coll.find? (fun r => getField r keyPath == some kv)

/-- `store.put(rec)` on a keyPath object store: insert-or-replace keyed by
the record's own `keyPath` field.  (IndexedDB rejects a put of a record
without its key; no in-scope call reaches that case, so it is the
identity here.) -/
def putRecord (coll : List Record) (keyPath : String) (rec : Record) : List Record :=
  match getField rec keyPath with
  | none => coll
  | some kv =>
    if coll.any (fun r => getField r keyPath == some kv) then
      coll.map (fun r => if getField r keyPath == some kv then rec else r)
    else
      coll ++ [rec]

/-- The `newUser` object literal built by `registerUser`; `newId` and
`createdAt` stand for the call-time values of
`"user_" + Date.now() + ...` and `new Date().toISOString()`. -/
def newUserRecord (email pass name : String) (role : UserRole)
    (specialization : Option String) (newId createdAt : String) : Record :=
  [("_id", .str newId), ("email", .str email), ("password", .str pass),
   ("name", .str name), ("role", roleValue role), ("createdAt", .str createdAt),
   ("bloodGroup", .str "Unknown"), ("age", .str ""), ("height", .str ""),
   ("weight", .str ""), ("phone", .str ""), ("dob", .str ""),
   ("specialization", .str (specialization.getD ""))]

/-- `registerUser`: look the email up in the unique `email` index; throw
"User with this email already exists." if found; otherwise `store.add` the
new user (which itself enforces the primary key and the unique email
index) and return `{ user: { ...newUser, uid: newUser._id }, role }`. -/
def registerUser (db : DB) (email pass name : String) (role : UserRole)
    (specialization : Option String) (newId createdAt : String) :
    DB × Except DBError Record :=
  match indexGet db.users "email" (.str email) with
  | some _ => (db, .error .userExists)
  | none =>
    let newUser := newUserRecord email pass name role specialization newId createdAt
    if (getByKey db.users "_id" (.str newId)).isSome
        || (indexGet db.users "email" (.str email)).isSome then
      (db, .error .constraintError)
    else
      ({ db with users := db.users ++ [newUser] },
       .ok (mergeRecords newUser [("uid", .str newId)]))

/-- The value of `{ user, role, name }` returned by a successful login. -/
structure LoginResult where
  user : Record
  role : Value
  name : Value
deriving DecidableEq, Repr

/-- `loginUser`: look the email up in the `email` index; fail with
"Invalid email or password." when absent or when the stored password does
not strictly equal `pass`; otherwise return the profile object built
field-by-field (without the password). -/
def loginUser (db : DB) (email pass : String) : Except DBError LoginResult :=
  match indexGet db.users "email" (.str email) with
  | none => .error .invalidCredential
  | some user =>
    if getField user "password" == some (.str pass) then
      .ok { user := [("uid", jsGet user "_id"), ("email", jsGet user "email"),
                     ("name", jsGet user "name"), ("role", jsGet user "role"),
                     ("bloodGroup", jsGet user "bloodGroup"),
                     ("age", jsGet user "age"), ("dob", jsGet user "dob"),
                     ("height", jsGet user "height"),
                     ("weight", jsGet user "weight"),
                     ("phone", jsGet user "phone"),
                     ("specialization", jsGet user "specialization")],
            role := jsGet user "role", name := jsGet user "name" }
    else .error .invalidCredential

/-- `updateUserInDb(uid, updates)`: get the user by primary key `_id`; fail
with "User not found" when absent; otherwise put back the shallow merge
`{ ...data, ...updates }`. -/
def updateUserInDb (db : DB) (uid : String) (updates : Record) :
    DB × Except DBError Unit :=
  match getByKey db.users "_id" (.str uid) with
  | none => (db, .error .userNotFound)
  | some data =>
    ({ db with users := putRecord db.users "_id" (mergeRecords data updates) },
     .ok ())

/-- The five-field object `fetchAvailableDoctors` builds from each stored
doctor record. -/
def doctorView (doc : Record) : Record :=
  [("uid", jsGet doc "_id"), ("name", jsGet doc "name"),
   ("email", jsGet doc "email"), ("role", jsGet doc "role"),
   ("specialization", jsGet doc "specialization")]

/-- `fetchAvailableDoctors`: `role` index getAll on DOCTOR, mapped to the
five-field view. -/
def fetchAvailableDoctors (db : DB) : List Record :=
  (indexGetAll db.users "role" (roleValue .DOCTOR)).map doctorView

/-- `saveReportToDb(report)`: put `{ ...report, updatedAt: new
Date().toISOString() }` into the reports store; `now` stands for the
call-time ISO timestamp. -/
def saveReportToDb (db : DB) (report : Record) (now : String) : DB :=
  let reportDoc := mergeRecords report [("updatedAt", .str now)]
  { db with reports := putRecord db.reports "id" reportDoc }

/-- Numeric view of `r.timestamp` used by the sort comparator
`(a, b) => b.timestamp - a.timestamp`. -/
def tsOf (r : Record) : Int :=
  match getField r "timestamp" with
  | some (.num n) => n
  | _ => 0

/-- `results.sort((a, b) => b.timestamp - a.timestamp)`: a stable sort
placing `a` before `b` exactly when `b.timestamp - a.timestamp <= 0`. -/
def sortByTimestampDesc (l : List Record) : List Record :=
  l.mergeSort (fun a b => decide (tsOf b ≤ tsOf a))

/-- `fetchPatientReports(userId)`: `userId` index getAll, sorted by
timestamp descending. -/
def fetchPatientReports (db : DB) (userId : String) : List Record :=
  sortByTimestampDesc (indexGetAll db.reports "userId" (.str userId))

/-- `fetchReportsForSpecificDoctor(doctorId)`: `targetDoctorId` index
getAll, sorted by timestamp descending. -/
def fetchReportsForSpecificDoctor (db : DB) (doctorId : String) : List Record :=
  sortByTimestampDesc (indexGetAll db.reports "targetDoctorId" (.str doctorId))

/-- `updateReportInDb(reportId, updates)`: get the report by primary key
`id`; fail with "Report not found" when absent; otherwise put back the
shallow merge `{ ...data, ...updates }`. -/
def updateReportInDb (db : DB) (reportId : String) (updates : Record) :
    DB × Except DBError Unit :=
  match getByKey db.reports "id" (.str reportId) with
  | none => (db, .error .reportNotFound)
  | some data =>
    ({ db with reports := putRecord db.reports "id" (mergeRecords data updates) },
     .ok ())

/-- The sidebar section selector of the zustand store. -/
inductive SidebarSection where
  | profile
  | library
deriving DecidableEq, Repr

/-- The zustand `AppState` (store.ts): session identity, the in-memory
report collection, the doctors cache, and the UI flags.  `currentUserId`
is `string | null`, embedded as `Option String`. -/
structure AppState where
  currentUserRole : UserRole
  currentPatientName : String
  currentUserId : Option String
  currentUserProfile : Option Record
  reports : List Record
  availableDoctors : List Record
  isLoading : Bool
  isSidebarOpen : Bool
  sidebarActiveSection : SidebarSection
deriving DecidableEq, Repr

/-- JavaScript truthiness of the `currentUserId : string | null` value:
`null` and the empty string are falsy, every other string is truthy. -/
def idTruthy : Option String → Bool
  | none => false
  | some uid => !(uid == "")

/-- `loadReports()`: returns the state after the call settles together
with whether a store fetch was actually issued.  The early return
`if (!currentUserId && currentUserRole !== UserRole.DOCTOR) return` uses
JS truthiness of `currentUserId` (false for null and for the empty
string), as do the two fetch-branch guards `role === ... && currentUserId`;
otherwise `isLoading` is set and then always cleared in the `finally`; the
fetch is issued only in the PATIENT-with-truthy-id and
DOCTOR-with-truthy-id branches, and `fetchFails` says whether that fetch
rejects (the `catch` then skips the `set({ reports })`, logs, and
surfaces nothing).  In the fetch branches the id is truthy, hence a
string, which `Option.getD` extracts. -/
def loadReports (s : AppState) (db : DB) (fetchFails : Bool) : AppState × Bool :=
  if !(idTruthy s.currentUserId) && !(s.currentUserRole == UserRole.DOCTOR) then
    (s, false)
  else if s.currentUserRole == UserRole.PATIENT && idTruthy s.currentUserId then
    if fetchFails then ({ s with isLoading := false }, true)
    else
      let fetched := fetchPatientReports db (s.currentUserId.getD "")
      ({ s with reports := fetched, isLoading := false }, true)
  else if s.currentUserRole == UserRole.DOCTOR && idTruthy s.currentUserId then
    if fetchFails then ({ s with isLoading := false }, true)
    else
      let fetched := fetchReportsForSpecificDoctor db (s.currentUserId.getD "")
      ({ s with reports := fetched, isLoading := false }, true)
  else ({ s with reports := [], isLoading := false }, false)

/-- The JavaScript value stored for `doctorNotes: notes` when the optional
`notes` parameter is or is not supplied. -/
def notesValue : Option String → Value
  | some s => .str s
  | none => .undefined

/-- The update object `{ status, doctorNotes: notes }` that
`updateReportStatus` both spreads in memory and sends to
`updateReportInDb`. -/
def statusUpdate (status : Value) (notes : Option String) : Record :=
  [("status", status), ("doctorNotes", notesValue notes)]

/-- The optimistic in-memory rewrite performed first by
`updateReportStatus`: `reports.map(r => r.id === id ? { ...r, status,
doctorNotes: notes } : r)`. -/
def applyStatusLocal (reports : List Record) (id : String) (status : Value)
    (notes : Option String) : List Record :=
  reports.map (fun r =>
    if getField r "id" == some (.str id) then
      mergeRecords r (statusUpdate status notes)
    else r)

/-- `updateReportStatus(id, status, notes?)`: rewrite the in-memory
collection first, then issue `updateReportInDb`; a store failure is
caught and only logged, so the returned state never depends on the
outcome of the store write. -/
def updateReportStatus (s : AppState) (db : DB) (id : String) (status : Value)
    (notes : Option String) : AppState × DB :=
  let s' := { s with reports := applyStatusLocal s.reports id status notes }
  let res := updateReportInDb db id (statusUpdate status notes)
  (s', res.1)

/-! Helper lemmas about field lookup, spread-merge, and keyed put. -/

theorem getField_cons (a : String) (v : Value) (r : Record) (k : String) :
    getField ((a, v) :: r) k = if a = k then some v else getField r k := by
  by_cases h : a = k
  · simp [getField, h]
  · simp [getField, List.find?_cons_of_neg, h]

theorem getField_append (l₁ l₂ : Record) (k : String) :
    getField (l₁ ++ l₂) k = (getField l₁ k).or (getField l₂ k) := by
  unfold getField
  rw [List.find?_append]
  cases l₁.find? (fun p => p.1 == k) <;> simp

theorem getField_map_override (d u : Record) (k : String) :
    getField (d.map (fun p =>
      match getField u p.1 with
      | some v => (p.1, v)
      | none => p)) k =
    match getField d k, getField u k with
    | none, _ => none
    | some _, some v => some v
    | some w, none => some w := by
  induction d with
  | nil => simp [getField]
  | cons p d ih =>
    obtain ⟨a, w⟩ := p
    cases hu : getField u a with
    | some v =>
      simp only [List.map_cons, hu]
      by_cases h : a = k
      · subst h; simp [getField_cons, hu]
      · simp [getField_cons, h, ih]
    | none =>
      simp only [List.map_cons, hu]
      by_cases h : a = k
      · subst h; simp [getField_cons, hu]
      · simp [getField_cons, h, ih]

theorem getField_filter_isNone (d u : Record) (k : String) :
    getField (u.filter (fun p => (getField d p.1).isNone)) k =
    if (getField d k).isNone then getField u k else none := by
  induction u with
  | nil => simp [getField]
  | cons p u ih =>
    obtain ⟨a, w⟩ := p
    by_cases hd : (getField d a).isNone
    · rw [List.filter_cons_of_pos (by simpa using hd)]
      by_cases h : a = k
      · subst h; simp [getField_cons, hd]
      · simp [getField_cons, h, ih]
    · rw [List.filter_cons_of_neg (by simpa using hd)]
      by_cases h : a = k
      · subst h
        rw [ih]
        simp_all
      · rw [ih]
        simp [getField_cons, h]

/-- Field lookup on a spread-merge: the update wins where present, the
existing record answers otherwise. -/
theorem getField_mergeRecords (d u : Record) (k : String) :
    getField (mergeRecords d u) k = (getField u k).or (getField d k) := by
  unfold mergeRecords
  rw [getField_append, getField_map_override, getField_filter_isNone]
  cases hd : getField d k <;> cases hu : getField u k <;> simp

theorem getByKey_replace (coll : List Record) (kp : String) (rec : Record)
    (kv : Value) (h : getField rec kp = some kv)
    (hex : coll.any (fun r => getField r kp == some kv) = true) :
    getByKey (coll.map (fun r => if getField r kp == some kv then rec else r)) kp kv
      = some rec := by
  induction coll with
  | nil => simp at hex
  | cons r coll ih =>
    by_cases hr : (getField r kp == some kv) = true
    · simp only [List.map_cons, if_pos hr]
      unfold getByKey
      rw [List.find?_cons_of_pos _ (by simp [h])]
    · simp only [List.map_cons, if_neg hr]
      have hrest : getByKey (coll.map (fun r => if getField r kp == some kv then rec else r)) kp kv
          = some rec := by
        apply ih
        simpa [List.any_cons, hr] using hex
      unfold getByKey at hrest ⊢
      rw [List.find?_cons_of_neg _ (by simpa using hr)]
      exact hrest

theorem getByKey_append_missing (coll : List Record) (kp : String) (rec : Record)
    (kv : Value) (h : getField rec kp = some kv)
    (hnone : coll.any (fun r => getField r kp == some kv) = false) :
    getByKey (coll ++ [rec]) kp kv = some rec := by
  unfold getByKey
  rw [List.find?_append]
  have hfind : coll.find? (fun r => getField r kp == some kv) = none := by
    rw [List.find?_eq_none]
    intro x hx hpx
    have : coll.any (fun r => getField r kp == some kv) = true :=
      List.any_eq_true.mpr ⟨x, hx, hpx⟩
    simp [this] at hnone
  rw [hfind]
  simp [h]

/-- Keyed put followed by a get of the same key returns exactly the record
just put. -/
theorem getByKey_putRecord_self (coll : List Record) (kp : String) (rec : Record)
    (kv : Value) (h : getField rec kp = some kv) :
    getByKey (putRecord coll kp rec) kp kv = some rec := by
  unfold putRecord
  rw [h]
  cases hex : coll.any (fun r => getField r kp == some kv) with
  | true => simpa [hex] using getByKey_replace coll kp rec kv h hex
  | false => simpa [hex] using getByKey_append_missing coll kp rec kv h hex

theorem getByKey_replace_other (coll : List Record) (kp : String) (rec : Record)
    (kv kv' : Value) (h : getField rec kp = some kv) (hne : kv' ≠ kv) :
    getByKey (coll.map (fun r => if getField r kp == some kv then rec else r)) kp kv'
      = getByKey coll kp kv' := by
  induction coll with
  | nil => rfl
  | cons r coll ih =>
    by_cases hr : (getField r kp == some kv) = true
    · have hrk : getField r kp = some kv := by simpa using hr
      have hprec : (getField rec kp == some kv') = false := by
        simp [h]
        exact fun hc => hne hc.symm
      have hpr : (getField r kp == some kv') = false := by
        simp [hrk]
        exact fun hc => hne hc.symm
      simp only [List.map_cons, if_pos hr]
      unfold getByKey at ih ⊢
      rw [List.find?_cons_of_neg _ (by simp [hprec]),
        List.find?_cons_of_neg _ (by simp [hpr])]
      exact ih
    · simp only [List.map_cons, if_neg hr]
      by_cases hp : (getField r kp == some kv') = true
      · unfold getByKey
        rw [List.find?_cons_of_pos (p := fun r => getField r kp == some kv') _ hp,
          List.find?_cons_of_pos (p := fun r => getField r kp == some kv') _ hp]
      · unfold getByKey at ih ⊢
        rw [List.find?_cons_of_neg _ (by simpa using hp),
          List.find?_cons_of_neg _ (by simpa using hp)]
        exact ih

/-- Keyed put leaves every other key's lookup unchanged. -/
theorem getByKey_putRecord_other (coll : List Record) (kp : String) (rec : Record)
    (kv kv' : Value) (h : getField rec kp = some kv) (hne : kv' ≠ kv) :
    getByKey (putRecord coll kp rec) kp kv' = getByKey coll kp kv' := by
  unfold putRecord
  rw [h]
  cases hex : coll.any (fun r => getField r kp == some kv) with
  | true => simpa [hex] using getByKey_replace_other coll kp rec kv kv' h hne
  | false =>
    have hne' : ¬ (kv = kv') := fun hc => hne hc.symm
    simp [hex, getByKey, List.find?_append, h, hne']

theorem find?_eq_head_filter {α : Type} (p : α → Bool) (l : List α) :
    l.find? p = (l.filter p).head? := by
  induction l with
  | nil => rfl
  | cons a l ih =>
    by_cases h : p a = true
    · rw [List.find?_cons_of_pos _ h, List.filter_cons_of_pos h]
      rfl
    · rw [List.find?_cons_of_neg _ (by simpa using h),
        List.filter_cons_of_neg (by simpa using h)]
      exact ih

/-! Claim theorems. -/

/-- C1: for every existing record and every partial update, the
merge-update operations (updateReportInDb, updateUserInDb) store the
shallow merge of the partial update over the existing record keyed by
primary id: every field present in the update takes the update's value,
and every field absent from the update keeps exactly its previous stored
value.  A partial update is keyed by the primary id, so it does not rebind
the report key `id` (and a `Partial UserProfile` has no `_id` field at
all), which the key hypotheses record. -/
theorem mergeUpdate_shallow_merge
    (db : DB) (rid uid : String) (rupd uupd rdata udata : Record)
    (hr : getByKey db.reports "id" (.str rid) = some rdata)
    (hrk : getField rupd "id" = none ∨ getField rupd "id" = some (.str rid))
    (hu : getByKey db.users "_id" (.str uid) = some udata)
    (huk : getField uupd "_id" = none) :
    ((updateReportInDb db rid rupd).2 = .ok () ∧
     getByKey (updateReportInDb db rid rupd).1.reports "id" (.str rid)
       = some (mergeRecords rdata rupd) ∧
     (∀ k v, getField rupd k = some v →
       getField (mergeRecords rdata rupd) k = some v) ∧
     (∀ k, getField rupd k = none →
       getField (mergeRecords rdata rupd) k = getField rdata k)) ∧
    ((updateUserInDb db uid uupd).2 = .ok () ∧
     getByKey (updateUserInDb db uid uupd).1.users "_id" (.str uid)
       = some (mergeRecords udata uupd) ∧
     (∀ k v, getField uupd k = some v →
       getField (mergeRecords udata uupd) k = some v) ∧
     (∀ k, getField uupd k = none →
       getField (mergeRecords udata uupd) k = getField udata k)) := by
  have hrdid : getField rdata "id" = some (.str rid) := by
    unfold getByKey at hr
    simpa using List.find?_some hr
  have hudid : getField udata "_id" = some (.str uid) := by
    unfold getByKey at hu
    simpa using List.find?_some hu
  have hmid : getField (mergeRecords rdata rupd) "id" = some (.str rid) := by
    rw [getField_mergeRecords]
    rcases hrk with h | h <;> simp [h, hrdid]
  have hmuid : getField (mergeRecords udata uupd) "_id" = some (.str uid) := by
    rw [getField_mergeRecords, huk]
    simpa using hudid
  have hrop : updateReportInDb db rid rupd
      = ({ db with reports := putRecord db.reports "id" (mergeRecords rdata rupd) },
         .ok ()) := by
    unfold updateReportInDb
    rw [hr]
  have huop : updateUserInDb db uid uupd
      = ({ db with users := putRecord db.users "_id" (mergeRecords udata uupd) },
         .ok ()) := by
    unfold updateUserInDb
    rw [hu]
  refine ⟨⟨by rw [hrop], ?_, ?_, ?_⟩, ⟨by rw [huop], ?_, ?_, ?_⟩⟩
  · rw [hrop]
    exact getByKey_putRecord_self db.reports "id" _ _ hmid
  · intro k v hk
    rw [getField_mergeRecords, hk]
    rfl
  · intro k hk
    rw [getField_mergeRecords, hk]
    rfl
  · rw [huop]
    exact getByKey_putRecord_self db.users "_id" _ _ hmuid
  · intro k v hk
    rw [getField_mergeRecords, hk]
    rfl
  · intro k hk
    rw [getField_mergeRecords, hk]
    rfl

/-- C1 witness: on a store with report r1 = {id, a:1, b:2} and user u1 =
{_id, email, name:"Old"}, the update {b:3} stores {id, a:1, b:3} back at
r1 (b overridden, a preserved) and {name:"New"} stores the merge at u1
(name overridden, email preserved). -/
theorem mergeUpdate_shallow_merge_witness :
    (updateReportInDb
        ⟨[[("_id", .str "u1"), ("email", .str "e@x.com"), ("name", .str "Old")]],
         [[("id", .str "r1"), ("a", .num 1), ("b", .num 2)]]⟩
        "r1" [("b", .num 3)]).2 = .ok () ∧
    getField (mergeRecords [("id", .str "r1"), ("a", .num 1), ("b", .num 2)]
        [("b", .num 3)]) "b" = some (.num 3) ∧
    getField (mergeRecords [("id", .str "r1"), ("a", .num 1), ("b", .num 2)]
        [("b", .num 3)]) "a"
      = getField [("id", .str "r1"), ("a", .num 1), ("b", .num 2)] "a" ∧
    getField (mergeRecords
        [("_id", .str "u1"), ("email", .str "e@x.com"), ("name", .str "Old")]
        [("name", .str "New")]) "name" = some (.str "New") ∧
    getField (mergeRecords
        [("_id", .str "u1"), ("email", .str "e@x.com"), ("name", .str "Old")]
        [("name", .str "New")]) "email"
      = getField [("_id", .str "u1"), ("email", .str "e@x.com"), ("name", .str "Old")]
          "email" := by
  have h := mergeUpdate_shallow_merge
    ⟨[[("_id", .str "u1"), ("email", .str "e@x.com"), ("name", .str "Old")]],
     [[("id", .str "r1"), ("a", .num 1), ("b", .num 2)]]⟩
    "r1" "u1" [("b", .num 3)] [("name", .str "New")]
    [("id", .str "r1"), ("a", .num 1), ("b", .num 2)]
    [("_id", .str "u1"), ("email", .str "e@x.com"), ("name", .str "Old")]
    (by decide) (Or.inl (by decide)) (by decide) (by decide)
  exact ⟨h.1.1, h.1.2.2.1 "b" (.num 3) (by decide), h.1.2.2.2 "a" (by decide),
    h.2.2.2.1 "name" (.str "New") (by decide), h.2.2.2.2 "email" (by decide)⟩

/-- C2: a merge-update on an id with no record in the target collection
fails with the not-found error and performs no write: the returned store
equals the store before the call. -/
theorem mergeUpdate_missing_id_fails
    (db : DB) (rid uid : String) (rupd uupd : Record)
    (hr : getByKey db.reports "id" (.str rid) = none)
    (hu : getByKey db.users "_id" (.str uid) = none) :
    updateReportInDb db rid rupd = (db, .error .reportNotFound) ∧
    updateUserInDb db uid uupd = (db, .error .userNotFound) := by
  constructor
  · unfold updateReportInDb
    rw [hr]
  · unfold updateUserInDb
    rw [hu]

/-- C2 witness: on a store holding only report r1 and user u1, merge
updates aimed at r2 and u2 fail and return the store unchanged. -/
theorem mergeUpdate_missing_id_fails_witness :
    updateReportInDb
        ⟨[[("_id", .str "u1")]], [[("id", .str "r1")]]⟩ "r2" [("b", .num 3)]
      = (⟨[[("_id", .str "u1")]], [[("id", .str "r1")]]⟩, .error .reportNotFound) ∧
    updateUserInDb
        ⟨[[("_id", .str "u1")]], [[("id", .str "r1")]]⟩ "u2" [("name", .str "N")]
      = (⟨[[("_id", .str "u1")]], [[("id", .str "r1")]]⟩, .error .userNotFound) :=
  mergeUpdate_missing_id_fails
    ⟨[[("_id", .str "u1")]], [[("id", .str "r1")]]⟩ "r2" "u2"
    [("b", .num 3)] [("name", .str "N")] (by decide) (by decide)

/-- C3: when the store already contains (exactly) the user u with email E,
a second registerUser call with email E fails with the duplicate error and
neither inserts nor overwrites: the store is returned unchanged, so it
still contains exactly the one user record with email E, identical to the
pre-existing one. -/
theorem registerUser_duplicate_email_fails
    (db : DB) (E pass name : String) (role : UserRole) (spec : Option String)
    (newId createdAt : String) (u : Record)
    (hone : db.users.filter (fun r => getField r "email" == some (.str E)) = [u]) :
    registerUser db E pass name role spec newId createdAt
      = (db, .error .userExists) ∧
    (registerUser db E pass name role spec newId createdAt).1.users.filter
      (fun r => getField r "email" == some (.str E)) = [u] := by
  have hfind : indexGet db.users "email" (.str E) = some u := by
    unfold indexGet
    rw [find?_eq_head_filter, hone]
    rfl
  have hmain : registerUser db E pass name role spec newId createdAt
      = (db, .error .userExists) := by
    unfold registerUser
    rw [hfind]
  exact ⟨hmain, by rw [hmain]; exact hone⟩

/-- C3 witness: registering a second account with the already-registered
email fails with the duplicate error and leaves the single matching user
record in place. -/
theorem registerUser_duplicate_email_fails_witness :
    registerUser
        ⟨[[("_id", .str "u1"), ("email", .str "a@x.com"), ("password", .str "p")]], []⟩
        "a@x.com" "q" "N" .PATIENT none "u2" "t"
      = (⟨[[("_id", .str "u1"), ("email", .str "a@x.com"), ("password", .str "p")]], []⟩,
         .error .userExists) ∧
    (registerUser
        ⟨[[("_id", .str "u1"), ("email", .str "a@x.com"), ("password", .str "p")]], []⟩
        "a@x.com" "q" "N" .PATIENT none "u2" "t").1.users.filter
      (fun r => getField r "email" == some (.str "a@x.com"))
      = [[("_id", .str "u1"), ("email", .str "a@x.com"), ("password", .str "p")]] :=
  registerUser_duplicate_email_fails
    ⟨[[("_id", .str "u1"), ("email", .str "a@x.com"), ("password", .str "p")]], []⟩
    "a@x.com" "q" "N" .PATIENT none "u2" "t"
    [("_id", .str "u1"), ("email", .str "a@x.com"), ("password", .str "p")]
    (by decide)

theorem getField_nil (k : String) : getField [] k = none := rfl

/-- Keyed put reduces to an entrywise replacement when a record with the
same key is already present. -/
theorem putRecord_replace_eq (coll : List Record) (kp : String) (rec : Record)
    (kv : Value) (h : getField rec kp = some kv)
    (hany : coll.any (fun r => getField r kp == some kv) = true) :
    putRecord coll kp rec
      = coll.map (fun r => if getField r kp == some kv then rec else r) := by
  unfold putRecord
  simp only [h]
  rw [if_pos hany]

/-- Sorting with the comparator `(a, b) => b.timestamp - a.timestamp` is a
permutation, yields timestamp-descending order, and is stable: a
descending-sorted sublist of the input stays a sublist of the output. -/
theorem sortByTimestampDesc_spec (l : List Record) :
    (sortByTimestampDesc l).Perm l ∧
    List.Pairwise (fun a b => tsOf b ≤ tsOf a) (sortByTimestampDesc l) ∧
    (∀ c : List Record, c.Pairwise (fun a b => tsOf b ≤ tsOf a) →
      c.Sublist l → c.Sublist (sortByTimestampDesc l)) := by
  have htrans : ∀ a b c : Record,
      (fun a b => decide (tsOf b ≤ tsOf a)) a b →
      (fun a b => decide (tsOf b ≤ tsOf a)) b c →
      (fun a b => decide (tsOf b ≤ tsOf a)) a c := by
    intro a b c hab hbc
    simp only [decide_eq_true_eq] at hab hbc ⊢
    exact le_trans hbc hab
  have htotal : ∀ a b : Record,
      ((fun a b => decide (tsOf b ≤ tsOf a)) a b
        || (fun a b => decide (tsOf b ≤ tsOf a)) b a) = true := by
    intro a b
    rcases le_total (tsOf a) (tsOf b) with h | h <;> simp [h]
  refine ⟨List.mergeSort_perm l _, ?_, ?_⟩
  · have h := List.sorted_mergeSort htrans htotal l
    exact h.imp (fun hab => by simpa using hab)
  · intro c hc hsub
    exact List.sublist_mergeSort htrans htotal
      (hc.imp (fun h => by simpa using h)) hsub

/-- C4: the doctor-routed index query returns exactly the reports whose
targetDoctorId equals D (a permutation of the matching subset, so none
missing and no others), ordered by timestamp descending, with ties kept in
stable store order (any descending-sorted sublist of the matching subset,
in particular each tie class, survives as a sublist); likewise
fetchPatientReports for userId. -/
theorem fetch_queries_filter_and_sort (db : DB) (D P : String) :
    ((fetchReportsForSpecificDoctor db D).Perm
       (db.reports.filter (fun r => getField r "targetDoctorId" == some (.str D))) ∧
     List.Pairwise (fun a b => tsOf b ≤ tsOf a) (fetchReportsForSpecificDoctor db D) ∧
     (∀ c : List Record, c.Pairwise (fun a b => tsOf b ≤ tsOf a) →
       c.Sublist (db.reports.filter
         (fun r => getField r "targetDoctorId" == some (.str D))) →
       c.Sublist (fetchReportsForSpecificDoctor db D))) ∧
    ((fetchPatientReports db P).Perm
       (db.reports.filter (fun r => getField r "userId" == some (.str P))) ∧
     List.Pairwise (fun a b => tsOf b ≤ tsOf a) (fetchPatientReports db P) ∧
     (∀ c : List Record, c.Pairwise (fun a b => tsOf b ≤ tsOf a) →
       c.Sublist (db.reports.filter
         (fun r => getField r "userId" == some (.str P))) →
       c.Sublist (fetchPatientReports db P))) :=
  ⟨sortByTimestampDesc_spec
      (indexGetAll db.reports "targetDoctorId" (.str D)),
   sortByTimestampDesc_spec
      (indexGetAll db.reports "userId" (.str P))⟩

/-- C4 witness: on a three-report store with two reports routed to doctor
d carrying equal timestamps, the doctor-d query is a permutation of
exactly the two matching reports, is timestamp-descending, and keeps the
tied pair in stable store order (the pair in store order survives as a
sublist of the result). -/
theorem fetch_queries_filter_and_sort_witness :
    ((fetchReportsForSpecificDoctor
        ⟨[], [[("id", .str "r1"), ("userId", .str "p"), ("targetDoctorId", .str "d"),
               ("timestamp", .num 5)],
              [("id", .str "r2"), ("userId", .str "q"), ("targetDoctorId", .str "e"),
               ("timestamp", .num 7)],
              [("id", .str "r3"), ("userId", .str "p"), ("targetDoctorId", .str "d"),
               ("timestamp", .num 5)]]⟩ "d").Perm
       (([[("id", .str "r1"), ("userId", .str "p"), ("targetDoctorId", .str "d"),
               ("timestamp", .num 5)],
              [("id", .str "r2"), ("userId", .str "q"), ("targetDoctorId", .str "e"),
               ("timestamp", .num 7)],
              [("id", .str "r3"), ("userId", .str "p"), ("targetDoctorId", .str "d"),
               ("timestamp", .num 5)]] : List Record).filter
         (fun r => getField r "targetDoctorId" == some (.str "d"))) ∧
     List.Pairwise (fun a b => tsOf b ≤ tsOf a)
       (fetchReportsForSpecificDoctor
        ⟨[], [[("id", .str "r1"), ("userId", .str "p"), ("targetDoctorId", .str "d"),
               ("timestamp", .num 5)],
              [("id", .str "r2"), ("userId", .str "q"), ("targetDoctorId", .str "e"),
               ("timestamp", .num 7)],
              [("id", .str "r3"), ("userId", .str "p"), ("targetDoctorId", .str "d"),
               ("timestamp", .num 5)]]⟩ "d") ∧
     ([[("id", .str "r1"), ("userId", .str "p"), ("targetDoctorId", .str "d"),
        ("timestamp", .num 5)],
       [("id", .str "r3"), ("userId", .str "p"), ("targetDoctorId", .str "d"),
        ("timestamp", .num 5)]] : List Record).Sublist
       (fetchReportsForSpecificDoctor
        ⟨[], [[("id", .str "r1"), ("userId", .str "p"), ("targetDoctorId", .str "d"),
               ("timestamp", .num 5)],
              [("id", .str "r2"), ("userId", .str "q"), ("targetDoctorId", .str "e"),
               ("timestamp", .num 7)],
              [("id", .str "r3"), ("userId", .str "p"), ("targetDoctorId", .str "d"),
               ("timestamp", .num 5)]]⟩ "d")) := by
  have h := fetch_queries_filter_and_sort
    ⟨[], [[("id", .str "r1"), ("userId", .str "p"), ("targetDoctorId", .str "d"),
           ("timestamp", .num 5)],
          [("id", .str "r2"), ("userId", .str "q"), ("targetDoctorId", .str "e"),
           ("timestamp", .num 7)],
          [("id", .str "r3"), ("userId", .str "p"), ("targetDoctorId", .str "d"),
           ("timestamp", .num 5)]]⟩ "d" "p"
  exact ⟨h.1.1, h.1.2.1, h.1.2.2 _ (by decide) (by decide)⟩

/-- C7 counterexample: a successful updateReportInDb leaves the stored
record's updatedAt at its previous value "T0"; since the update write
happens strictly after the write that stamped "T0", the stored updatedAt
is not the timestamp of the update write.  (updateReportInDb takes no
clock at all: it performs a plain shallow merge.) -/
theorem updatedAt_not_stamped_on_merge_update_cex :
    (updateReportInDb ⟨[], [[("id", .str "r1"), ("updatedAt", .str "T0")]]⟩ "r1"
        [("status", .str "reviewed")]).2 = .ok () ∧
    ((updateReportInDb ⟨[], [[("id", .str "r1"), ("updatedAt", .str "T0")]]⟩ "r1"
        [("status", .str "reviewed")]).1.reports.map
      (fun r => getField r "updatedAt")) = [some (.str "T0")] := by
  decide

/-- C7 amended: every successful saveReportToDb stamps the stored record's
updatedAt with the write-time timestamp; updateReportInDb instead performs
a plain shallow merge, so after it the stored record's updatedAt equals the
update's updatedAt when the update carries one and the previous stored
value otherwise. -/
theorem updatedAt_stamping
    (db : DB) (report : Record) (now : String) (kv : Value)
    (hid : getField report "id" = some kv)
    (rid : String) (upd rdata : Record)
    (hr : getByKey db.reports "id" (.str rid) = some rdata)
    (hrk : getField upd "id" = none ∨ getField upd "id" = some (.str rid)) :
    (getByKey (saveReportToDb db report now).reports "id" kv
       = some (mergeRecords report [("updatedAt", .str now)]) ∧
     getField (mergeRecords report [("updatedAt", .str now)]) "updatedAt"
       = some (.str now)) ∧
    (getByKey (updateReportInDb db rid upd).1.reports "id" (.str rid)
       = some (mergeRecords rdata upd) ∧
     getField (mergeRecords rdata upd) "updatedAt"
       = (getField upd "updatedAt").or (getField rdata "updatedAt")) := by
  have hstampid : getField [("updatedAt", Value.str now)] "id" = none := by
    simp [getField_cons, getField_nil]
  have hdockey : getField (mergeRecords report [("updatedAt", .str now)]) "id"
      = some kv := by
    rw [getField_mergeRecords, hstampid]
    simpa using hid
  have hrdid : getField rdata "id" = some (.str rid) := by
    unfold getByKey at hr
    simpa using List.find?_some hr
  have hmid : getField (mergeRecords rdata upd) "id" = some (.str rid) := by
    rw [getField_mergeRecords]
    rcases hrk with h | h <;> simp [h, hrdid]
  refine ⟨⟨?_, ?_⟩, ?_, getField_mergeRecords rdata upd "updatedAt"⟩
  · show getByKey (putRecord db.reports "id"
        (mergeRecords report [("updatedAt", .str now)])) "id" kv = _
    exact getByKey_putRecord_self db.reports "id" _ kv hdockey
  · rw [getField_mergeRecords]
    simp [getField_cons]
  · have hrop : updateReportInDb db rid upd
        = ({ db with reports := putRecord db.reports "id" (mergeRecords rdata upd) },
           .ok ()) := by
      unfold updateReportInDb
      rw [hr]
    rw [hrop]
    exact getByKey_putRecord_self db.reports "id" _ _ hmid

/-- C7 amended witness: saving report r2 at time "T1" stores it with
updatedAt "T1"; merge-updating r1 with a status-only update keeps the old
updatedAt "T0". -/
theorem updatedAt_stamping_witness :
    (getByKey (saveReportToDb ⟨[], [[("id", .str "r1"), ("updatedAt", .str "T0")]]⟩
        [("id", .str "r2"), ("b", .num 1)] "T1").reports "id" (.str "r2")
       = some (mergeRecords [("id", .str "r2"), ("b", .num 1)]
           [("updatedAt", .str "T1")]) ∧
     getField (mergeRecords [("id", .str "r2"), ("b", .num 1)]
        [("updatedAt", .str "T1")]) "updatedAt" = some (.str "T1")) ∧
    (getByKey (updateReportInDb ⟨[], [[("id", .str "r1"), ("updatedAt", .str "T0")]]⟩
        "r1" [("status", .str "reviewed")]).1.reports "id" (.str "r1")
       = some (mergeRecords [("id", .str "r1"), ("updatedAt", .str "T0")]
           [("status", .str "reviewed")]) ∧
     getField (mergeRecords [("id", .str "r1"), ("updatedAt", .str "T0")]
        [("status", .str "reviewed")]) "updatedAt"
       = (getField [("status", Value.str "reviewed")] "updatedAt").or
           (getField [("id", .str "r1"), ("updatedAt", .str "T0")] "updatedAt")) :=
  updatedAt_stamping ⟨[], [[("id", .str "r1"), ("updatedAt", .str "T0")]]⟩
    [("id", .str "r2"), ("b", .num 1)] "T1" (.str "r2") (by decide)
    "r1" [("status", .str "reviewed")] [("id", .str "r1"), ("updatedAt", .str "T0")]
    (by decide) (Or.inl (by decide))

/-! Field lemmas for the update object sent by updateReportStatus. -/

theorem statusUpdate_status (status : Value) (notes : Option String) :
    getField (statusUpdate status notes) "status" = some status := by
  simp [statusUpdate, getField_cons]

theorem statusUpdate_doctorNotes (status : Value) (notes : Option String) :
    getField (statusUpdate status notes) "doctorNotes" = some (notesValue notes) := by
  simp [statusUpdate, getField_cons, getField_nil]

theorem statusUpdate_id (status : Value) (notes : Option String) :
    getField (statusUpdate status notes) "id" = none := by
  simp [statusUpdate, getField_cons, getField_nil]

theorem statusUpdate_userId (status : Value) (notes : Option String) :
    getField (statusUpdate status notes) "userId" = none := by
  simp [statusUpdate, getField_cons, getField_nil]

theorem statusUpdate_targetDoctorId (status : Value) (notes : Option String) :
    getField (statusUpdate status notes) "targetDoctorId" = none := by
  simp [statusUpdate, getField_cons, getField_nil]

/-- C5: updateReportStatus rewrites the matching in-memory report's
status and doctorNotes synchronously and optimistically: the resulting
in-memory state is the same for every store state (so it cannot depend on
whether or when the store write succeeds, and no rollback happens on
store failure), the matching reports carry the new status and notes, and
reports with a different id are unchanged. -/
theorem updateReportStatus_optimistic
    (s : AppState) (db : DB) (id : String) (status : Value) (notes : Option String) :
    (∀ db2 : DB, (updateReportStatus s db2 id status notes).1
        = (updateReportStatus s db id status notes).1) ∧
    List.Forall₂ (fun r r2 =>
        (getField r "id" = some (.str id) →
          getField r2 "status" = some status ∧
          getField r2 "doctorNotes" = some (notesValue notes)) ∧
        (getField r "id" ≠ some (.str id) → r2 = r))
      s.reports (updateReportStatus s db id status notes).1.reports := by
  refine ⟨fun db2 => rfl, ?_⟩
  show List.Forall₂ _ s.reports (applyStatusLocal s.reports id status notes)
  unfold applyStatusLocal
  rw [List.forall₂_map_right_iff, List.forall₂_same]
  intro r _
  constructor
  · intro hid
    rw [if_pos (show (getField r "id" == some (Value.str id)) = true by simp [hid])]
    constructor
    · rw [getField_mergeRecords, statusUpdate_status, Option.or_some]
    · rw [getField_mergeRecords, statusUpdate_doctorNotes, Option.or_some]
  · intro hid
    rw [if_neg (show ¬ ((getField r "id" == some (Value.str id)) = true) by
      simpa using hid)]

/-- C5 witness: with reports r1 and r2 held in memory, marking r1 reviewed
against a store on which the write fails (no such report) yields the same
in-memory state as against a store on which it succeeds, r1 carries the
new status and notes, and r2 is untouched. -/
theorem updateReportStatus_optimistic_witness :
    (updateReportStatus
        ⟨.DOCTOR, "", some "d1", none,
         [[("id", .str "r1"), ("status", .str "pending"), ("userId", .str "p1")],
          [("id", .str "r2"), ("status", .str "pending")]],
         [], false, false, .profile⟩
        ⟨[], []⟩ "r1" (.str "reviewed") (some "ok")).1
      = (updateReportStatus
        ⟨.DOCTOR, "", some "d1", none,
         [[("id", .str "r1"), ("status", .str "pending"), ("userId", .str "p1")],
          [("id", .str "r2"), ("status", .str "pending")]],
         [], false, false, .profile⟩
        ⟨[], [[("id", .str "r1"), ("status", .str "pending"),
               ("userId", .str "p1")]]⟩ "r1" (.str "reviewed") (some "ok")).1 ∧
    List.Forall₂ (fun r r2 =>
        (getField r "id" = some (.str "r1") →
          getField r2 "status" = some (.str "reviewed") ∧
          getField r2 "doctorNotes" = some (notesValue (some "ok"))) ∧
        (getField r "id" ≠ some (.str "r1") → r2 = r))
      [[("id", .str "r1"), ("status", .str "pending"), ("userId", .str "p1")],
       [("id", .str "r2"), ("status", .str "pending")]]
      (updateReportStatus
        ⟨.DOCTOR, "", some "d1", none,
         [[("id", .str "r1"), ("status", .str "pending"), ("userId", .str "p1")],
          [("id", .str "r2"), ("status", .str "pending")]],
         [], false, false, .profile⟩
        ⟨[], [[("id", .str "r1"), ("status", .str "pending"),
               ("userId", .str "p1")]]⟩ "r1" (.str "reviewed") (some "ok")).1.reports := by
  have h := updateReportStatus_optimistic
    ⟨.DOCTOR, "", some "d1", none,
     [[("id", .str "r1"), ("status", .str "pending"), ("userId", .str "p1")],
      [("id", .str "r2"), ("status", .str "pending")]],
     [], false, false, .profile⟩
    ⟨[], [[("id", .str "r1"), ("status", .str "pending"), ("userId", .str "p1")]]⟩
    "r1" (.str "reviewed") (some "ok")
  exact ⟨h.1 ⟨[], []⟩, h.2⟩

/-- C6: with an identity present (a JS-truthy id: a non-empty string), if
loadReports issues a fetch and that fetch fails, the resulting state is
exactly the old state with the loading flag cleared (the held report
collection is stale but unchanged, and the error is swallowed rather than
surfaced: the operation's type carries no error channel); the loading flag
is cleared on the success path too. -/
theorem loadReports_failure_preserves_reports
    (s : AppState) (db : DB) (uid : String) (h : s.currentUserId = some uid)
    (hne : uid ≠ "") :
    ((loadReports s db true).2 = true →
      (loadReports s db true).1 = { s with isLoading := false }) ∧
    (loadReports s db true).1.isLoading = false ∧
    (loadReports s db false).1.isLoading = false := by
  unfold loadReports
  rw [h]
  have hb : (uid == "") = false := by simpa using hne
  cases s.currentUserRole <;> simp [idTruthy, hb]

/-- C6 witness: a doctor session with a held report collection keeps it
unchanged when the fetch fails, ending with loading cleared, and the
loading flag is also cleared on the success path. -/
theorem loadReports_failure_preserves_reports_witness :
    ((loadReports
        ⟨.DOCTOR, "", some "d1", none, [[("id", .str "r1")]], [], false, false,
         .profile⟩ ⟨[], []⟩ true).2 = true →
      (loadReports
        ⟨.DOCTOR, "", some "d1", none, [[("id", .str "r1")]], [], false, false,
         .profile⟩ ⟨[], []⟩ true).1
        = { currentUserRole := .DOCTOR, currentPatientName := "",
            currentUserId := some "d1", currentUserProfile := none,
            reports := [[("id", .str "r1")]], availableDoctors := [],
            isLoading := false, isSidebarOpen := false,
            sidebarActiveSection := .profile }) ∧
    (loadReports
        ⟨.DOCTOR, "", some "d1", none, [[("id", .str "r1")]], [], false, false,
         .profile⟩ ⟨[], []⟩ true).1.isLoading = false ∧
    (loadReports
        ⟨.DOCTOR, "", some "d1", none, [[("id", .str "r1")]], [], false, false,
         .profile⟩ ⟨[], []⟩ false).1.isLoading = false :=
  loadReports_failure_preserves_reports
    ⟨.DOCTOR, "", some "d1", none, [[("id", .str "r1")]], [], false, false,
     .profile⟩ ⟨[], []⟩ "d1" rfl (by decide)

/-- C9: when the role is DOCTOR but the identity id is null, loadReports
does not return early: it replaces the held report collection with the
empty list without issuing any store fetch and clears the loading flag;
only when the id is null and the role is not DOCTOR is the call a true
no-op leaving all state unchanged. -/
theorem loadReports_doctor_null_id
    (s : AppState) (db : DB) (b : Bool) (hid : s.currentUserId = none) :
    (s.currentUserRole = .DOCTOR →
      loadReports s db b = ({ s with reports := [], isLoading := false }, false)) ∧
    (s.currentUserRole ≠ .DOCTOR → loadReports s db b = (s, false)) := by
  constructor
  · intro hrole
    unfold loadReports
    rw [hid, hrole]
    simp [idTruthy]
  · intro hrole
    unfold loadReports
    rw [hid]
    have hb : (s.currentUserRole == UserRole.DOCTOR) = false := by
      simpa using hrole
    simp [idTruthy, hb]

/-- C9 witness: a DOCTOR session with null id gets its reports replaced by
the empty list, loading cleared and no fetch issued; a GUEST session with
null id is left fully unchanged. -/
theorem loadReports_doctor_null_id_witness :
    loadReports
        ⟨.DOCTOR, "", none, none, [[("id", .str "r1")]], [], true, false, .profile⟩
        ⟨[], []⟩ true
      = ({ currentUserRole := .DOCTOR, currentPatientName := "",
           currentUserId := none, currentUserProfile := none, reports := [],
           availableDoctors := [], isLoading := false, isSidebarOpen := false,
           sidebarActiveSection := .profile }, false) ∧
    loadReports
        ⟨.GUEST, "", none, none, [[("id", .str "r1")]], [], true, false, .profile⟩
        ⟨[], []⟩ true
      = (⟨.GUEST, "", none, none, [[("id", .str "r1")]], [], true, false, .profile⟩,
         false) :=
  ⟨(loadReports_doctor_null_id
      ⟨.DOCTOR, "", none, none, [[("id", .str "r1")]], [], true, false, .profile⟩
      ⟨[], []⟩ true rfl).1 rfl,
   (loadReports_doctor_null_id
      ⟨.GUEST, "", none, none, [[("id", .str "r1")]], [], true, false, .profile⟩
      ⟨[], []⟩ true rfl).2 (by decide)⟩

/-- C8: updateReportStatus, whose store merge carries only status and
doctorNotes, leaves the userId and targetDoctorId of every report
unchanged, both in the in-memory collection and in the store (the store
list is compared entrywise; the keyPath store holds at most one record per
primary id, recorded by the Nodup hypothesis). -/
theorem report_routing_fields_invariant
    (s : AppState) (db : DB) (id : String) (status : Value) (notes : Option String)
    (hnodup : (db.reports.map (fun r => getField r "id")).Nodup) :
    List.Forall₂ (fun r r2 =>
        getField r2 "userId" = getField r "userId" ∧
        getField r2 "targetDoctorId" = getField r "targetDoctorId")
      s.reports (updateReportStatus s db id status notes).1.reports ∧
    List.Forall₂ (fun r r2 =>
        getField r2 "userId" = getField r "userId" ∧
        getField r2 "targetDoctorId" = getField r "targetDoctorId")
      db.reports (updateReportStatus s db id status notes).2.reports := by
  constructor
  · show List.Forall₂ _ s.reports (applyStatusLocal s.reports id status notes)
    unfold applyStatusLocal
    rw [List.forall₂_map_right_iff, List.forall₂_same]
    intro r _
    by_cases h : (getField r "id" == some (Value.str id)) = true
    · rw [if_pos h]
      constructor
      · rw [getField_mergeRecords, statusUpdate_userId, Option.none_or]
      · rw [getField_mergeRecords, statusUpdate_targetDoctorId, Option.none_or]
    · rw [if_neg h]
      exact ⟨rfl, rfl⟩
  · show List.Forall₂ _ db.reports
      (updateReportInDb db id (statusUpdate status notes)).1.reports
    cases hget : getByKey db.reports "id" (.str id) with
    | none =>
      unfold updateReportInDb
      rw [hget]
      rw [List.forall₂_same]
      exact fun r _ => ⟨rfl, rfl⟩
    | some data =>
      have hdid : getField data "id" = some (.str id) := by
        unfold getByKey at hget
        simpa using List.find?_some hget
      have hmem : data ∈ db.reports := by
        unfold getByKey at hget
        exact List.mem_of_find?_eq_some hget
      have hmid : getField (mergeRecords data (statusUpdate status notes)) "id"
          = some (.str id) := by
        rw [getField_mergeRecords, statusUpdate_id, Option.none_or]
        exact hdid
      unfold updateReportInDb
      rw [hget]
      show List.Forall₂ _ db.reports
        (putRecord db.reports "id" (mergeRecords data (statusUpdate status notes)))
      have hany : db.reports.any (fun r => getField r "id" == some (Value.str id))
          = true :=
        List.any_eq_true.mpr ⟨data, hmem, by simp [hdid]⟩
      rw [putRecord_replace_eq db.reports "id" _ _ hmid hany]
      rw [List.forall₂_map_right_iff, List.forall₂_same]
      intro r hrmem
      by_cases h : (getField r "id" == some (Value.str id)) = true
      · rw [if_pos h]
        have hrid : getField r "id" = some (.str id) := by simpa using h
        have hdr : data = r :=
          List.inj_on_of_nodup_map hnodup hmem hrmem (by rw [hdid, hrid])
        subst hdr
        constructor
        · rw [getField_mergeRecords, statusUpdate_userId, Option.none_or]
        · rw [getField_mergeRecords, statusUpdate_targetDoctorId, Option.none_or]
      · rw [if_neg h]
        exact ⟨rfl, rfl⟩

/-- C8 witness: marking r1 reviewed on a two-report session and store
leaves userId and targetDoctorId of both reports unchanged in memory and
in the store. -/
theorem report_routing_fields_invariant_witness :
    List.Forall₂ (fun r r2 =>
        getField r2 "userId" = getField r "userId" ∧
        getField r2 "targetDoctorId" = getField r "targetDoctorId")
      [[("id", .str "r1"), ("userId", .str "p1"), ("targetDoctorId", .str "d1"),
        ("status", .str "pending")],
       [("id", .str "r2"), ("userId", .str "p2"), ("targetDoctorId", .str "d2"),
        ("status", .str "pending")]]
      (updateReportStatus
        ⟨.DOCTOR, "", some "d1", none,
         [[("id", .str "r1"), ("userId", .str "p1"), ("targetDoctorId", .str "d1"),
           ("status", .str "pending")],
          [("id", .str "r2"), ("userId", .str "p2"), ("targetDoctorId", .str "d2"),
           ("status", .str "pending")]],
         [], false, false, .profile⟩
        ⟨[], [[("id", .str "r1"), ("userId", .str "p1"),
               ("targetDoctorId", .str "d1"), ("status", .str "pending")],
              [("id", .str "r2"), ("userId", .str "p2"),
               ("targetDoctorId", .str "d2"), ("status", .str "pending")]]⟩
        "r1" (.str "reviewed") (some "ok")).1.reports ∧
    List.Forall₂ (fun r r2 =>
        getField r2 "userId" = getField r "userId" ∧
        getField r2 "targetDoctorId" = getField r "targetDoctorId")
      [[("id", .str "r1"), ("userId", .str "p1"), ("targetDoctorId", .str "d1"),
        ("status", .str "pending")],
       [("id", .str "r2"), ("userId", .str "p2"), ("targetDoctorId", .str "d2"),
        ("status", .str "pending")]]
      (updateReportStatus
        ⟨.DOCTOR, "", some "d1", none,
         [[("id", .str "r1"), ("userId", .str "p1"), ("targetDoctorId", .str "d1"),
           ("status", .str "pending")],
          [("id", .str "r2"), ("userId", .str "p2"), ("targetDoctorId", .str "d2"),
           ("status", .str "pending")]],
         [], false, false, .profile⟩
        ⟨[], [[("id", .str "r1"), ("userId", .str "p1"),
               ("targetDoctorId", .str "d1"), ("status", .str "pending")],
              [("id", .str "r2"), ("userId", .str "p2"),
               ("targetDoctorId", .str "d2"), ("status", .str "pending")]]⟩
        "r1" (.str "reviewed") (some "ok")).2.reports :=
  report_routing_fields_invariant
    ⟨.DOCTOR, "", some "d1", none,
     [[("id", .str "r1"), ("userId", .str "p1"), ("targetDoctorId", .str "d1"),
       ("status", .str "pending")],
      [("id", .str "r2"), ("userId", .str "p2"), ("targetDoctorId", .str "d2"),
       ("status", .str "pending")]],
     [], false, false, .profile⟩
    ⟨[], [[("id", .str "r1"), ("userId", .str "p1"),
           ("targetDoctorId", .str "d1"), ("status", .str "pending")],
          [("id", .str "r2"), ("userId", .str "p2"),
           ("targetDoctorId", .str "d2"), ("status", .str "pending")]]⟩
    "r1" (.str "reviewed") (some "ok") (by decide)

/-- C10: the stored password never appears in the public read results:
every record returned by fetchAvailableDoctors consists exactly of the
fields uid, name, email, role and specialization (in particular no
password binding), and the user object returned by a successful loginUser
consists exactly of the eleven profile fields, with no password binding. -/
theorem no_password_in_public_reads
    (db : DB) (email pass : String) (out : LoginResult)
    (hlogin : loginUser db email pass = .ok out) :
    (out.user.map Prod.fst
       = ["uid", "email", "name", "role", "bloodGroup", "age", "dob", "height",
          "weight", "phone", "specialization"] ∧
     getField out.user "password" = none) ∧
    (∀ rec ∈ fetchAvailableDoctors db,
      rec.map Prod.fst = ["uid", "name", "email", "role", "specialization"] ∧
      getField rec "password" = none) := by
  constructor
  · unfold loginUser at hlogin
    cases hfind : indexGet db.users "email" (.str email) with
    | none =>
      simp only [hfind] at hlogin
      exact absurd hlogin (by simp)
    | some user =>
      simp only [hfind] at hlogin
      by_cases hp : (getField user "password" == some (Value.str pass)) = true
      · rw [if_pos hp] at hlogin
        injection hlogin with hout
        subst hout
        constructor
        · rfl
        · simp [getField_cons, getField_nil]
      · rw [if_neg hp] at hlogin
        simp at hlogin
  · intro rec hrec
    unfold fetchAvailableDoctors at hrec
    obtain ⟨doc, _, rfl⟩ := List.mem_map.mp hrec
    constructor
    · rfl
    · simp [doctorView, getField_cons, getField_nil]

/-- C10 witness: on a store with one patient and one doctor (both with
stored passwords), the patient's successful login result and the doctor
record returned by fetchAvailableDoctors expose exactly the public fields
and carry no password binding. -/
theorem no_password_in_public_reads_witness :
    ([("uid", Value.str "u1"), ("email", Value.str "a@x.com"),
      ("name", Value.str "N"), ("role", Value.str "PATIENT"),
      ("bloodGroup", Value.undefined), ("age", Value.undefined), ("dob", Value.undefined),
      ("height", Value.undefined), ("weight", Value.undefined), ("phone", Value.undefined),
      ("specialization", Value.undefined)].map Prod.fst
       = ["uid", "email", "name", "role", "bloodGroup", "age", "dob", "height",
          "weight", "phone", "specialization"] ∧
     getField [("uid", Value.str "u1"), ("email", Value.str "a@x.com"),
      ("name", Value.str "N"), ("role", Value.str "PATIENT"),
      ("bloodGroup", Value.undefined), ("age", Value.undefined), ("dob", Value.undefined),
      ("height", Value.undefined), ("weight", Value.undefined), ("phone", Value.undefined),
      ("specialization", Value.undefined)] "password" = none) ∧
    (∀ rec ∈ fetchAvailableDoctors
        ⟨[[("_id", .str "u1"), ("email", .str "a@x.com"), ("password", .str "p"),
           ("name", .str "N"), ("role", roleValue .PATIENT)],
          [("_id", .str "d1"), ("email", .str "d@x.com"), ("password", .str "q"),
           ("name", .str "D"), ("role", roleValue .DOCTOR),
           ("specialization", .str "cardio")]], []⟩,
      rec.map Prod.fst = ["uid", "name", "email", "role", "specialization"] ∧
      getField rec "password" = none) := by
  have h := no_password_in_public_reads
    ⟨[[("_id", .str "u1"), ("email", .str "a@x.com"), ("password", .str "p"),
       ("name", .str "N"), ("role", roleValue .PATIENT)],
      [("_id", .str "d1"), ("email", .str "d@x.com"), ("password", .str "q"),
       ("name", .str "D"), ("role", roleValue .DOCTOR),
       ("specialization", .str "cardio")]], []⟩
    "a@x.com" "p"
    ⟨[("uid", Value.str "u1"), ("email", Value.str "a@x.com"),
      ("name", Value.str "N"), ("role", Value.str "PATIENT"),
      ("bloodGroup", Value.undefined), ("age", Value.undefined), ("dob", Value.undefined),
      ("height", Value.undefined), ("weight", Value.undefined), ("phone", Value.undefined),
      ("specialization", Value.undefined)], Value.str "PATIENT", Value.str "N"⟩
    (by decide)
  exact ⟨h.1, h.2⟩

end HealthSathi
